import Mathlib

/-!
Verification development for the skooledin-quizzes worksheet application.

The definitions below are a shallow embedding of the TypeScript source:
the data model of src/types.ts, the session store of src/utils/storage.ts,
the answer evaluation of the Question component (handleSubmit), the guard
logic of the Worksheet page, the score and report layout computations of
the PDF service and the Results page, the ingestion normalization of
supabase/functions/process-worksheet/index.ts, and the upload flow of
WorksheetUpload.tsx.

Modelling conventions:
- JavaScript strings are Lean String; toLowerCase and trim are modelled
  by jsToLower and jsTrim below (ASCII case mapping, which covers the
  compared data).
- A TypeScript value of type string | string[] is modelled as
  String ⊕ List String.
- Optional fields (userAnswer?, isCorrect?, description?) are Option.
- sessionStorage slots are fields of a SessionState record; the
  JSON.stringify / JSON.parse round trip through storage is modelled as
  storing the value itself.
- A JavaScript arithmetic result that may be non-finite (NaN or an
  infinity, as produced by division by zero) is modelled as Option ℚ,
  with none standing for the non-finite outcomes.
-/

namespace QuizWiz

/-- JavaScript String.prototype.toLowerCase, modelled as per-character
ASCII lowercasing over the character list (Char.toLower). -/
def jsToLower (s : String) : String :=
  ⟨s.data.map Char.toLower⟩

/-- JavaScript String.prototype.trim: strip whitespace from both ends. -/
def jsTrim (s : String) : String :=
  ⟨((s.data.dropWhile fun c => c.isWhitespace).reverse.dropWhile
      fun c => c.isWhitespace).reverse⟩

/-- The four question types of src/types.ts (QuestionType). -/
inductive QuestionType where
  | multipleChoice
  | text
  | fillBlank
  | matching
deriving DecidableEq, Repr

/-- string | string[] values (correctAnswer, userAnswer in src/types.ts). -/
abbrev StrOrList := String ⊕ List String

/-- Option record of src/types.ts ({ id, text }); renamed QOption because
Option is taken in Lean. -/
structure QOption where
  id : String
  text : String
deriving DecidableEq, Repr

/-- Question record of src/types.ts. -/
structure Question where
  id : String
  type : QuestionType
  text : String
  options : Option (List QOption)
  correctAnswer : StrOrList
  userAnswer : Option StrOrList
  isCorrect : Option Bool
deriving DecidableEq, Repr

/-- WorksheetSection record of src/types.ts. -/
structure WorksheetSection where
  id : String
  title : String
  instructions : String
  questions : List Question
deriving DecidableEq, Repr

/-- Worksheet record of src/types.ts. -/
structure Worksheet where
  id : String
  title : String
  description : Option String
  sections : List WorksheetSection
deriving DecidableEq, Repr

/-- StudentInfo record of src/types.ts. -/
structure StudentInfo where
  name : String
  timestamp : String
deriving DecidableEq, Repr

/-- The four sessionStorage slots of src/utils/storage.ts.  none models a
missing key.  The current-question slot stores the index (the code stores
index.toString() and parses it back); the completed slot stores the boolean
(the code stores completed.toString() and compares against "true"). -/
structure SessionState where
  worksheet : Option Worksheet
  currentQuestionIndex : Option Nat
  studentInfo : Option StudentInfo
  completed : Option Bool
deriving DecidableEq, Repr

/-- The initial session state: no key is set. -/
def emptyState : SessionState :=
  { worksheet := none, currentQuestionIndex := none, studentInfo := none,
    completed := none }

/-- storage.ts saveWorksheet. -/
def saveWorksheet (w : Worksheet) (s : SessionState) : SessionState :=
  { s with worksheet := some w }

/-- storage.ts getWorksheet. -/
def getWorksheet (s : SessionState) : Option Worksheet :=
  s.worksheet

/-- storage.ts saveCurrentQuestionIndex. -/
def saveCurrentQuestionIndex (i : Nat) (s : SessionState) : SessionState :=
  { s with currentQuestionIndex := some i }

/-- storage.ts getCurrentQuestionIndex: defaults to 0 when the key is
absent. -/
def getCurrentQuestionIndex (s : SessionState) : Nat :=
  s.currentQuestionIndex.getD 0

/-- storage.ts saveStudentInfo. -/
def saveStudentInfo (info : StudentInfo) (s : SessionState) : SessionState :=
  { s with studentInfo := some info }

/-- storage.ts getStudentInfo. -/
def getStudentInfo (s : SessionState) : Option StudentInfo :=
  s.studentInfo

/-- storage.ts markAsCompleted. -/
def markAsCompleted (completed : Bool) (s : SessionState) : SessionState :=
  { s with completed := some completed }

/-- storage.ts isCompleted: the stored string must equal "true". -/
def isCompleted (s : SessionState) : Bool :=
  s.completed == some true

/-- storage.ts clearStorage: removes all four keys. -/
def clearStorage (_s : SessionState) : SessionState :=
  emptyState

/-- The per-question replacement performed inside updateQuestionAnswer:
on an id match the question is copied with userAnswer and isCorrect set,
otherwise it is returned unchanged. -/
def applyAnswer (questionId : String) (answer : StrOrList)
    (isCorrect : Bool) (q : Question) : Question :=
  if q.id = questionId then
    { q with userAnswer := some answer, isCorrect := some isCorrect }
  else q

/-- The per-section map inside updateQuestionAnswer. -/
def applyAnswerSection (questionId : String) (answer : StrOrList)
    (isCorrect : Bool) (sec : WorksheetSection) : WorksheetSection :=
  { sec with questions := sec.questions.map (applyAnswer questionId answer isCorrect) }

/-- Whether some question of the worksheet has the given id.  In the
source the updated flag is set inside the map callback exactly when a
question with the id is visited, which is equivalent to this test. -/
def questionIdFound (questionId : String) (w : Worksheet) : Bool :=
  w.sections.any (fun sec => sec.questions.any (fun q => q.id == questionId))

/-- storage.ts updateQuestionAnswer: no-op when no worksheet is stored;
otherwise maps the replacement over every section and persists the
updated worksheet only when a question with the id was found. -/
def updateQuestionAnswer (questionId : String) (answer : StrOrList)
    (isCorrect : Bool) (s : SessionState) : SessionState :=
  match s.worksheet with
  | none => s
  | some w =>
    if questionIdFound questionId w then
      saveWorksheet
        { w with sections := w.sections.map (applyAnswerSection questionId answer isCorrect) } s
    else s

/-- storage.ts getCompletedQuestionsCount: questions whose userAnswer is
not undefined. -/
def getCompletedQuestionsCount (s : SessionState) : Nat :=
  match s.worksheet with
  | none => 0
  | some w =>
    w.sections.foldl
      (fun total sec => total + (sec.questions.filter (fun q => q.userAnswer.isSome)).length) 0

/-- storage.ts getTotalQuestionsCount. -/
def getTotalQuestionsCount (s : SessionState) : Nat :=
  match s.worksheet with
  | none => 0
  | some w => w.sections.foldl (fun total sec => total + sec.questions.length) 0

/-- storage.ts getAllQuestions: flatMap of the sections in order. -/
def getAllQuestions (s : SessionState) : List Question :=
  match s.worksheet with
  | none => []
  | some w => w.sections.flatMap (fun sec => sec.questions)

/-- storage.ts getCorrectAnswersCount: questions whose isCorrect is truthy,
which for the Option Bool model means some true. -/
def getCorrectAnswersCount (s : SessionState) : Nat :=
  ((getAllQuestions s).filter (fun q => q.isCorrect == some true)).length

/-! Answer evaluation: the handleSubmit logic of the Question component. -/

/-- The correctness verdict computed by handleSubmit.
For multiple-choice and matching the code compares the selected option id
with strict equality against correctAnswer; a strict comparison of a
string with an array is false, hence the inr case.  For text and
fill-blank the code trims the submission, lowercases it, and compares it
against the lowercased correctAnswer, with Array.some when correctAnswer
is an array. -/
def handleSubmitCorrect (q : Question) (selectedOption textAnswer : String) : Bool :=
  match q.type with
  | .multipleChoice | .matching =>
    match q.correctAnswer with
    | .inl s => selectedOption == s
    | .inr _ => false
  | .text | .fillBlank =>
    let userAnswerLower := jsToLower (jsTrim textAnswer)
    match q.correctAnswer with
    | .inl s => userAnswerLower == jsToLower s
    | .inr l => l.any (fun a => userAnswerLower == jsToLower a)

/-- The answer value handleSubmit stores: the selected option id for
multiple-choice and matching, the trimmed text for text and fill-blank. -/
def handleSubmitAnswer (q : Question) (selectedOption textAnswer : String) : StrOrList :=
  match q.type with
  | .multipleChoice | .matching => .inl selectedOption
  | .text | .fillBlank => .inl (jsTrim textAnswer)

/-- The full submission step of the Question component: compute the
verdict, then persist it through updateQuestionAnswer. -/
def handleSubmitStep (q : Question) (selectedOption textAnswer : String)
    (s : SessionState) : SessionState :=
  updateQuestionAnswer q.id (handleSubmitAnswer q selectedOption textAnswer)
    (handleSubmitCorrect q selectedOption textAnswer) s

/-- The disabled condition of the Submit button in the Question component:
for multiple-choice and matching the button is disabled when no option is
selected (empty string state), otherwise when the trimmed text is empty. -/
def submitDisabled (q : Question) (selectedOption textAnswer : String) : Bool :=
  match q.type with
  | .multipleChoice | .matching => selectedOption == ""
  | .text | .fillBlank => jsTrim textAnswer == ""

/-- A submitted answer value is non-trivial when it is not the empty
string (option-id and text submissions are both stored as strings). -/
def answerNonTrivial : StrOrList → Bool
  | .inl s => !(s == "")
  | .inr _ => true

/-! The specification-level grading rule for text and fill-blank, written
from the spec wording for comparison with the code: trim the submission,
then compare case-insensitively with the single correct string or with
any member of the accepted set. -/

/-- Case-insensitive string equality (spec wording). -/
def caseInsensitiveEq (a b : String) : Prop :=
  jsToLower a = jsToLower b

/-- Modelled from the spec: the text / fill-blank grading rule of section
4.2 of the spec, used only as the comparison target of the refinement
claim about handleSubmit. -/
def specTextCorrect (correctAnswer : StrOrList) (raw : String) : Prop :=
  match correctAnswer with
  | .inl s => caseInsensitiveEq (jsTrim raw) s
  | .inr l => ∃ a ∈ l, caseInsensitiveEq (jsTrim raw) a

/-! Early-finish guard of the Worksheet page: the finish button renders
when completedCount >= totalCount / 2, a JavaScript comparison in which
the division is exact (rational), not integer division. -/

/-- The guard completedCount >= totalCount / 2 of Worksheet.tsx, with the
JavaScript division modelled as rational division. -/
def earlyFinishAvailable (completedCount totalCount : Nat) : Bool :=
  decide ((totalCount : ℚ) / 2 ≤ (completedCount : ℚ))

/-! Score computation of the PDF service (generatePDF) and the Results
page: Math.round((correctAnswers / totalQuestions) * 100).  Division by
zero yields a non-finite number (NaN for 0/0), modelled by none. -/

/-- JavaScript division producing none when the divisor is zero (the
result is then NaN or an infinity, never a finite number). -/
def jsDiv (a b : ℚ) : Option ℚ :=
  if b = 0 then none else some (a / b)

/-- Math.round on a possibly non-finite value: Math.round(NaN) is NaN and
Math.round(Infinity) is Infinity, so none maps to none; on a finite value
it rounds half towards positive infinity. -/
def jsRound : Option ℚ → Option ℤ
  | none => none
  | some q => some ⌊q + 1/2⌋

/-- The score formula shared by generatePDF (pdfService) and the Results
page: Math.round((correctAnswers / totalQuestions) * 100). -/
def scorePercentJS (correctAnswers totalQuestions : Nat) : Option ℤ :=
  jsRound ((jsDiv (correctAnswers : ℚ) (totalQuestions : ℚ)).map (fun q => q * 100))

/-- totalQuestions as computed in generatePDF by reduce over sections. -/
def totalQuestionsOf (w : Worksheet) : Nat :=
  w.sections.foldl (fun sum sec => sum + sec.questions.length) 0

/-- correctAnswers as computed in generatePDF: per section, the questions
whose isCorrect is truthy. -/
def correctAnswersOf (w : Worksheet) : Nat :=
  w.sections.foldl
    (fun sum sec => sum + (sec.questions.filter (fun q => q.isCorrect == some true)).length) 0

/-- The scorePercent value generatePDF computes for a worksheet. -/
def generatePDFScorePercent (w : Worksheet) : Option ℤ :=
  scorePercentJS (correctAnswersOf w) (totalQuestionsOf w)

/-! Per-question report layout of generatePDF. -/

/-- The user-answer text rendered by generatePDF: the template inserts
question.userAnswer || "Not answered", so an absent answer and an empty
string both fall back to the marker, while an array value (always truthy)
is interpolated with the comma join of Array.prototype.toString. -/
def renderedUserAnswer (q : Question) : String :=
  match q.userAnswer with
  | none => "Not answered"
  | some (.inl s) => if s = "" then "Not answered" else s
  | some (.inr l) => String.intercalate "," l

/-- Whether generatePDF appends the correct-answer line for a question:
this is the else branch of if (question.isCorrect), taken whenever
isCorrect is not truthy, i.e. whenever it is not the value true. -/
def rendersCorrectAnswer (q : Question) : Bool :=
  !(q.isCorrect == some true)

/-- The correct-answer text generatePDF renders: the members joined by
", " when correctAnswer is an array, the string itself otherwise. -/
def renderedCorrectAnswer (q : Question) : String :=
  match q.correctAnswer with
  | .inl s => s
  | .inr l => String.intercalate ", " l

/-! Ingestion normalization: the processedWorksheet construction of
supabase/functions/process-worksheet/index.ts.  The parsed AI response is
a worksheet-shaped object without stable identifiers; the adapter
overwrites the worksheet, section and question ids with fresh uuidv4()
values and backfills missing option ids with letters by array position.
uuidv4 is modelled by a supply fresh : Nat -> String sampled at the
successive call sites in evaluation order (worksheet first, then for each
section its id followed by its questions' ids). -/

/-- An option of the parsed AI response; a falsy (missing or empty) id is
modelled as the empty string, matching the opt.id || fallback test. -/
structure RawOption where
  id : String
  text : String
deriving DecidableEq, Repr

/-- A question of the parsed AI response.  Its id (if any) is discarded
by the adapter, so it is not modelled; userAnswer and isCorrect do not
occur in the response shape. -/
structure RawQuestion where
  type : QuestionType
  text : String
  options : Option (List RawOption)
  correctAnswer : StrOrList
deriving DecidableEq, Repr

/-- A section of the parsed AI response. -/
structure RawSection where
  title : String
  instructions : String
  questions : List RawQuestion
deriving DecidableEq, Repr

/-- The parsed AI response worksheet. -/
structure RawWorksheet where
  title : String
  description : Option String
  sections : List RawSection
deriving DecidableEq, Repr

/-- String.fromCharCode(97 + index): the letter id assigned to the option
at the given array position when its own id is missing. -/
def letterId (index : Nat) : String :=
  (Char.ofNat (97 + index)).toString

/-- Option id backfill: opt.id || String.fromCharCode(97 + index). -/
def backfillOption (index : Nat) (opt : RawOption) : QOption :=
  { id := if opt.id = "" then letterId index else opt.id, text := opt.text }

/-- Normalization of one question: a fresh id, option ids backfilled by
array position, content carried over unchanged. -/
def processQuestion (freshId : String) (q : RawQuestion) : Question :=
  { id := freshId, type := q.type, text := q.text,
    options := q.options.map (fun opts => (opts.enum.map (fun p => backfillOption p.1 p.2))),
    correctAnswer := q.correctAnswer, userAnswer := none, isCorrect := none }

/-- Normalization of a question list, threading the uuid supply counter:
each question consumes one fresh id in order.  Returns the questions and
the next counter value. -/
def processQuestions (fresh : Nat → String) (c : Nat) :
    List RawQuestion → List Question × Nat
  | [] => ([], c)
  | q :: qs =>
    let q' := processQuestion (fresh c) q
    let rest := processQuestions fresh (c + 1) qs
    (q' :: rest.1, rest.2)

/-- Normalization of a section list, threading the uuid supply counter:
each section consumes one fresh id, then its questions consume theirs. -/
def processSections (fresh : Nat → String) (c : Nat) :
    List RawSection → List WorksheetSection × Nat
  | [] => ([], c)
  | sec :: secs =>
    let qs := processQuestions fresh (c + 1) sec.questions
    let rest := processSections fresh qs.2 secs
    ({ id := fresh c, title := sec.title, instructions := sec.instructions,
       questions := qs.1 } :: rest.1, rest.2)

/-- The full processedWorksheet construction: the worksheet id is the
first uuid drawn, then the sections are normalized in order. -/
def processWorksheet (fresh : Nat → String) (rw : RawWorksheet) : Worksheet :=
  { id := fresh 0, title := rw.title, description := rw.description,
    sections := (processSections fresh 1 rw.sections).1 }

/-- All worksheet, section and question ids of a worksheet, in document
order (worksheet first, then per section its id followed by its
questions' ids). -/
def collectIds (w : Worksheet) : List String :=
  w.id :: w.sections.flatMap (fun sec => sec.id :: sec.questions.map Question.id)

/-! The upload flow of WorksheetUpload.tsx (handleSubmit): with no file
selected the handler returns before touching storage; otherwise it clears
the whole session store, runs the ingestion, and saves the worksheet only
on success — a failed ingestion leaves the cleared store as is. -/

/-- The state effect of WorksheetUpload.handleSubmit.  file models the
selected file slot (none = no file chosen); result models the outcome of
processWorksheetImage (none = error or null worksheet, some w =
successfully processed worksheet). -/
def uploadHandleSubmit (s : SessionState) (file : Option String)
    (result : Option Worksheet) : SessionState :=
  match file with
  | none => s
  | some _ =>
    let cleared := clearStorage s
    match result with
    | none => cleared
    | some w => saveWorksheet w cleared

/-! The demo fixture createSampleWorksheet of WorksheetUpload.tsx. -/

/-- The options list shared by the five matching questions of the demo
worksheet. -/
def sampleMatchingOptions : List QOption :=
  [ { id := "a", text := "¡Oh no, te deslizaste por la serpiente!" },
    { id := "b", text := "Es mi turno." },
    { id := "c", text := "Voy a tirar el dado." },
    { id := "d", text := "Te moviste dos espacios." },
    { id := "e", text := "Subí la escalera." } ]

/-- createSampleWorksheet: the demo Spanish worksheet, two sections with
five questions each. -/
def sampleWorksheet : Worksheet :=
  { id := "demo-worksheet",
    title := "Spanish Game Night Worksheet!",
    description := some "Let's practice our Spanish game phrases!",
    sections :=
      [ { id := "section-1",
          title := "Match the English to Spanish",
          instructions := "Match the sentences, fill in the blanks, and have fun!",
          questions :=
            [ { id := "q1", type := .matching, text := "It is my turn.",
                options := some sampleMatchingOptions, correctAnswer := .inl "b",
                userAnswer := none, isCorrect := none },
              { id := "q2", type := .matching, text := "I will throw the dice.",
                options := some sampleMatchingOptions, correctAnswer := .inl "c",
                userAnswer := none, isCorrect := none },
              { id := "q3", type := .matching, text := "You moved two spaces.",
                options := some sampleMatchingOptions, correctAnswer := .inl "d",
                userAnswer := none, isCorrect := none },
              { id := "q4", type := .matching, text := "I climbed the ladder.",
                options := some sampleMatchingOptions, correctAnswer := .inl "e",
                userAnswer := none, isCorrect := none },
              { id := "q5", type := .matching, text := "Oh no, you slid down!",
                options := some sampleMatchingOptions, correctAnswer := .inl "a",
                userAnswer := none, isCorrect := none } ] },
        { id := "section-2",
          title := "Fill in the blanks",
          instructions := "Fill in the missing Spanish words:",
          questions :=
            [ { id := "q6", type := .fillBlank, text := "_______ mi turno.",
                options := none, correctAnswer := .inl "Es",
                userAnswer := none, isCorrect := none },
              { id := "q7", type := .fillBlank, text := "Voy a _______ el dado.",
                options := none, correctAnswer := .inl "tirar",
                userAnswer := none, isCorrect := none },
              { id := "q8", type := .fillBlank, text := "Te _______ dos espacios.",
                options := none, correctAnswer := .inl "moviste",
                userAnswer := none, isCorrect := none },
              { id := "q9", type := .fillBlank, text := "Subí la _______.",
                options := none, correctAnswer := .inl "escalera",
                userAnswer := none, isCorrect := none },
              { id := "q10", type := .fillBlank, text := "_______ no, te deslizaste por la serpiente.",
                options := none, correctAnswer := .inl "Oh",
                userAnswer := none, isCorrect := none } ] } ] }

/-! Reachable session states: the state mutations the application can
perform, as found in the components.  The upload path clears the store
and then saves a normalized worksheet (WorksheetUpload.handleSubmit with
a successful ingestion), the demo path clears and saves the fixture
(handleDemoClick), answering persists through updateQuestionAnswer, and
the remaining handlers touch the other three slots. -/

inductive Reachable : SessionState → Prop where
  | init : Reachable emptyState
  | clear {s} : Reachable s → Reachable (clearStorage s)
  | upload {s} (file : String) (fresh : Nat → String) (rw : RawWorksheet) :
      Reachable s →
      Reachable (uploadHandleSubmit s (some file) (some (processWorksheet fresh rw)))
  | uploadFailed {s} (file : String) : Reachable s →
      Reachable (uploadHandleSubmit s (some file) none)
  | demo {s} : Reachable s → Reachable (saveWorksheet sampleWorksheet (clearStorage s))
  | answer {s} (questionId : String) (answer : StrOrList) (isCorrect : Bool) :
      Reachable s → Reachable (updateQuestionAnswer questionId answer isCorrect s)
  | saveIndex {s} (i : Nat) : Reachable s → Reachable (saveCurrentQuestionIndex i s)
  | saveInfo {s} (info : StudentInfo) : Reachable s → Reachable (saveStudentInfo info s)
  | complete {s} (b : Bool) : Reachable s → Reachable (markAsCompleted b s)

/-- The data-model invariant of the spec: userAnswer and isCorrect are
both absent or both present, for every question of the worksheet. -/
def answerEvalAtomic (w : Worksheet) : Bool :=
  w.sections.all (fun sec =>
    sec.questions.all (fun q => q.userAnswer.isSome == q.isCorrect.isSome))

/-- The number of uuids drawn while normalizing a section list: one per
section plus one per question. -/
def idCount (secs : List RawSection) : Nat :=
  (secs.map (fun sec => 1 + sec.questions.length)).sum

/-- The content relation between a raw question and its normalized image:
type, text and correctAnswer carried over, no answer fields, options
present exactly when the raw options are, with position i keeping a
non-falsy raw id and receiving the letter id of position i otherwise. -/
def rawQRel (rq : RawQuestion) (q : Question) : Prop :=
  q.type = rq.type ∧ q.text = rq.text ∧ q.correctAnswer = rq.correctAnswer ∧
  q.userAnswer = none ∧ q.isCorrect = none ∧
  q.options.isSome = rq.options.isSome ∧
  (∀ (opts : List RawOption) (opts' : List QOption),
    rq.options = some opts → q.options = some opts' →
    opts'.length = opts.length ∧
    ∀ (i : Nat) (ro : RawOption), opts[i]? = some ro →
      (ro.id ≠ "" → opts'[i]? = some { id := ro.id, text := ro.text }) ∧
      (ro.id = "" → opts'[i]? = some { id := letterId i, text := ro.text }))

/-- The content relation between a raw section and its normalized image:
title and instructions carried over and the questions related pointwise
in order. -/
def rawSecRel (rsec : RawSection) (sec : WorksheetSection) : Prop :=
  sec.title = rsec.title ∧ sec.instructions = rsec.instructions ∧
  List.Forall₂ rawQRel rsec.questions sec.questions

/-- A concrete injective uuid supply used by witnesses: n maps to the
string of n + 1 copies of the letter u. -/
def freshU : Nat → String :=
  fun n => String.mk (List.replicate (n + 1) 'u')

/-- A concrete raw worksheet used to witness the ingestion claim: one
section, one multiple-choice question with one option carrying an id and
one option lacking it. -/
def rwC8 : RawWorksheet :=
  { title := "Raw", description := none,
    sections :=
      [ { title := "S1", instructions := "Pick one",
          questions :=
            [ { type := .multipleChoice, text := "Pick",
                options := some [ { id := "x", text := "first" },
                                  { id := "", text := "second" } ],
                correctAnswer := .inl "x" } ] } ] }

/-- A concrete fill-blank question whose accepted answers are the set
containing Es and es, used to witness the evaluation claims. -/
def qEsSet : Question :=
  { id := "qEs", type := .fillBlank, text := "_______ mi turno.",
    options := none, correctAnswer := .inr ["Es", "es"],
    userAnswer := none, isCorrect := none }

/-- The unanswered question used to refute C3 as stated: no userAnswer
and no isCorrect verdict. -/
def qC3unanswered : Question :=
  { id := "qU", type := .fillBlank, text := "_______ mi turno.",
    options := none, correctAnswer := .inl "Es",
    userAnswer := none, isCorrect := none }

/-! ### Helper lemmas -/

/-- For text and fill-blank questions the verdict only depends on the
trimmed, lowercased submission and the correct answer. -/
theorem handleSubmitCorrect_text (q : Question) (sel raw : String)
    (h : q.type = .text ∨ q.type = .fillBlank) :
    handleSubmitCorrect q sel raw =
      (match q.correctAnswer with
       | .inl s => jsToLower (jsTrim raw) == jsToLower s
       | .inr l => l.any (fun a => jsToLower (jsTrim raw) == jsToLower a)) := by
  rcases h with h | h <;> simp only [handleSubmitCorrect, h]

/-- applyAnswer never changes the question id. -/
theorem applyAnswer_id (qid : String) (a : StrOrList) (c : Bool) (q : Question) :
    (applyAnswer qid a c q).id = q.id := by
  unfold applyAnswer
  split <;> rfl

/-- applyAnswer is idempotent on a question. -/
theorem applyAnswer_idem (qid : String) (a : StrOrList) (c : Bool) (q : Question) :
    applyAnswer qid a c (applyAnswer qid a c q) = applyAnswer qid a c q := by
  by_cases h : q.id = qid <;> simp [applyAnswer, h]

/-- applyAnswerSection is idempotent on a section. -/
theorem applyAnswerSection_idem (qid : String) (a : StrOrList) (c : Bool)
    (sec : WorksheetSection) :
    applyAnswerSection qid a c (applyAnswerSection qid a c sec) =
      applyAnswerSection qid a c sec := by
  simp only [applyAnswerSection, List.map_map]
  congr 1
  exact List.map_congr_left fun q _ => applyAnswer_idem qid a c q

/-- Mapping the replacement over the sections does not change which
question ids occur, so the found test is stable under the update. -/
theorem questionIdFound_map (qid : String) (a : StrOrList) (c : Bool) (w : Worksheet) :
    questionIdFound qid
      { w with sections := w.sections.map (applyAnswerSection qid a c) } =
      questionIdFound qid w := by
  simp [questionIdFound, applyAnswerSection, List.any_map, Function.comp_def,
    applyAnswer_id]

/-- Reduction of updateQuestionAnswer when no worksheet is stored. -/
theorem updateQuestionAnswer_none (qid : String) (a : StrOrList) (c : Bool)
    (s : SessionState) (h : s.worksheet = none) :
    updateQuestionAnswer qid a c s = s := by
  unfold updateQuestionAnswer
  rw [h]

/-- Reduction of updateQuestionAnswer when the stored worksheet contains
the question id. -/
theorem updateQuestionAnswer_found (qid : String) (a : StrOrList) (c : Bool)
    (s : SessionState) (w : Worksheet) (h : s.worksheet = some w)
    (hf : questionIdFound qid w = true) :
    updateQuestionAnswer qid a c s =
      saveWorksheet
        { w with sections := w.sections.map (applyAnswerSection qid a c) } s := by
  unfold updateQuestionAnswer
  rw [h]
  simp [hf]

/-- Reduction of updateQuestionAnswer when the id does not occur. -/
theorem updateQuestionAnswer_notFound (qid : String) (a : StrOrList) (c : Bool)
    (s : SessionState) (w : Worksheet) (h : s.worksheet = some w)
    (hf : questionIdFound qid w = false) :
    updateQuestionAnswer qid a c s = s := by
  unfold updateQuestionAnswer
  rw [h]
  simp [hf]

end QuizWiz

namespace QuizWiz

/-! ### Claims -/

/-- C1: for every text or fill-blank question the verdict of handleSubmit
is exactly the trim-then-case-insensitive comparison of the spec: when
correctAnswer is a set of strings the submission is correct iff its
normalization case-insensitively equals some member, when it is a single
string iff it case-insensitively equals it; consequently submissions with
the same trimmed lowercased form are graded identically, the set
containing Es and es accepts the submission ES, and the submissions with
text Answer surrounded by spaces, answer, and Answer all receive the same
verdict. -/
theorem C1_text_evaluation (q : Question) (sel : String)
    (htype : q.type = .text ∨ q.type = .fillBlank) :
    (∀ raw : String,
      handleSubmitCorrect q sel raw = true ↔ specTextCorrect q.correctAnswer raw) ∧
    (∀ r1 r2 : String, jsToLower (jsTrim r1) = jsToLower (jsTrim r2) →
      handleSubmitCorrect q sel r1 = handleSubmitCorrect q sel r2) ∧
    (q.correctAnswer = .inr ["Es", "es"] → handleSubmitCorrect q sel "ES" = true) ∧
    (handleSubmitCorrect q sel "  Answer  " = handleSubmitCorrect q sel "answer" ∧
     handleSubmitCorrect q sel "answer" = handleSubmitCorrect q sel "Answer") := by
  have hinv : ∀ r1 r2 : String, jsToLower (jsTrim r1) = jsToLower (jsTrim r2) →
      handleSubmitCorrect q sel r1 = handleSubmitCorrect q sel r2 := by
    intro r1 r2 hr
    rw [handleSubmitCorrect_text q sel r1 htype, handleSubmitCorrect_text q sel r2 htype, hr]
  refine ⟨?_, hinv, ?_, ?_, ?_⟩
  · intro raw
    rw [handleSubmitCorrect_text q sel raw htype]
    cases hca : q.correctAnswer with
    | inl s => simp [specTextCorrect, hca, caseInsensitiveEq]
    | inr l => simp [specTextCorrect, hca, caseInsensitiveEq, List.any_eq_true]
  · intro hca
    rw [handleSubmitCorrect_text q sel "ES" htype, hca]
    decide
  · exact hinv "  Answer  " "answer" (by decide)
  · exact hinv "answer" "Answer" (by decide)

/-- Witness for C1 at the concrete question qEsSet: the submission ES is
accepted against the set containing Es and es, and the three sample
submissions receive the same verdict. -/
theorem C1_text_evaluation_witness :
    handleSubmitCorrect qEsSet "" "ES" = true ∧
    handleSubmitCorrect qEsSet "" "  Answer  " = handleSubmitCorrect qEsSet "" "Answer" := by
  have h := C1_text_evaluation qEsSet "" (Or.inr rfl)
  exact ⟨h.2.2.1 rfl, h.2.2.2.1.trans h.2.2.2.2⟩

/-- C2 evidence (code bug): the score computation shared by generatePDF
and the Results page has no special case for zero total questions; at
correctAnswers = 0 and totalQuestions = 0 it evaluates
Math.round((0 / 0) * 100), a non-finite (NaN) result, not 0.  The same
holds for generatePDF on a worksheet with no sections. -/
theorem C2_zero_total_score_is_nan :
    scorePercentJS 0 0 = none ∧
    generatePDFScorePercent
      { id := "w0", title := "Empty", description := none, sections := [] } = none ∧
    scorePercentJS 0 0 ≠ some 0 := by
  refine ⟨rfl, rfl, ?_⟩
  intro h
  exact Option.noConfusion h

/-- C4: the early-finish guard of the Worksheet page, the JavaScript
comparison completedCount greater-or-equal totalCount / 2 with exact
division, coincides for natural counts with the threshold
answeredCount at least ceil(total / 2); the Nat expression (t + 1) / 2 is
that ceiling. -/
theorem C4_early_finish_threshold (a t : Nat) (ht : 0 < t) (_ha : a ≤ t) :
    (earlyFinishAvailable a t = true ↔ (t + 1) / 2 ≤ a) ∧
    (t + 1) / 2 = Nat.ceil ((t : ℚ) / 2) := by
  have h2 : (0 : ℚ) < 2 := by norm_num
  constructor
  · rw [earlyFinishAvailable, decide_eq_true_iff, div_le_iff₀ h2]
    constructor
    · intro h
      have hn : t ≤ a * 2 := by exact_mod_cast h
      omega
    · intro h
      have hn : t ≤ a * 2 := by omega
      exact_mod_cast hn
  · symm
    rw [Nat.ceil_eq_iff (by omega : (t + 1) / 2 ≠ 0)]
    constructor
    · rw [lt_div_iff₀ h2]
      exact_mod_cast (by omega : ((t + 1) / 2 - 1) * 2 < t)
    · rw [div_le_iff₀ h2]
      exact_mod_cast (by omega : t ≤ (t + 1) / 2 * 2)

/-- Witness for C4 at total 10: the affordance is available at 5 answered
questions and not at 4. -/
theorem C4_early_finish_threshold_witness :
    earlyFinishAvailable 5 10 = true ∧ earlyFinishAvailable 4 10 = false := by
  constructor
  · exact (C4_early_finish_threshold 5 10 (by decide) (by decide)).1.mpr (by decide)
  · have h := (C4_early_finish_threshold 4 10 (by decide) (by decide)).1
    cases hE : earlyFinishAvailable 4 10 with
    | false => rfl
    | true => exact absurd (h.mp hE) (by decide)

/-- C9: whenever the Submit button is enabled, the answer handleSubmit
passes to evaluation is non-trivial: for multiple-choice and matching it
is the non-empty selected option id, for text and fill-blank the
non-empty trimmed text; an empty normalized submission is unreachable
through the interface. -/
theorem C9_submit_requires_nontrivial (q : Question) (sel txt : String)
    (h : submitDisabled q sel txt = false) :
    answerNonTrivial (handleSubmitAnswer q sel txt) = true ∧
    (q.type = .text ∨ q.type = .fillBlank →
      handleSubmitAnswer q sel txt = .inl (jsTrim txt) ∧ jsTrim txt ≠ "") ∧
    (q.type = .multipleChoice ∨ q.type = .matching →
      handleSubmitAnswer q sel txt = .inl sel ∧ sel ≠ "") := by
  cases hty : q.type <;>
    simp_all [submitDisabled, handleSubmitAnswer, answerNonTrivial]

/-- Witness for C9: with the first demo question, a selected option b and
an empty text field, the Submit button is enabled and the stored answer is
the non-empty option id. -/
theorem C9_submit_requires_nontrivial_witness :
    answerNonTrivial (handleSubmitAnswer qEsSet "" "  hola  ") = true := by
  exact (C9_submit_requires_nontrivial qEsSet "" "  hola  " (by decide)).1

/-- C10: the upload handler of WorksheetUpload returns before touching
storage when no file is selected, and otherwise clears the whole session
store before ingestion, so after a failed ingestion the session is the
empty state: no worksheet, index 0, no student info, not completed. -/
theorem C10_upload_clears_session (s : SessionState) (file : Option String)
    (result : Option Worksheet) :
    (file = none → uploadHandleSubmit s file result = s) ∧
    (∀ f, file = some f → result = none →
      uploadHandleSubmit s file result = emptyState ∧
      getWorksheet (uploadHandleSubmit s file result) = none ∧
      getCurrentQuestionIndex (uploadHandleSubmit s file result) = 0 ∧
      getStudentInfo (uploadHandleSubmit s file result) = none ∧
      isCompleted (uploadHandleSubmit s file result) = false) := by
  constructor
  · rintro rfl; rfl
  · rintro f rfl rfl
    exact ⟨rfl, rfl, rfl, rfl, rfl⟩

/-- Witness for C10 at a loaded session: a failed upload of a chosen file
wipes a state holding the demo worksheet, an index and student info. -/
theorem C10_upload_clears_session_witness :
    uploadHandleSubmit
      (saveStudentInfo { name := "Ana", timestamp := "now" }
        (saveCurrentQuestionIndex 3 (saveWorksheet sampleWorksheet emptyState)))
      (some "sheet.png") none = emptyState := by
  exact ((C10_upload_clears_session _ (some "sheet.png") none).2 "sheet.png" rfl rfl).1

/-- C5: updateQuestionAnswer is idempotent under repeated identical
calls: applying it twice with the same arguments yields exactly the state
after the first application, so the stored worksheet and allQuestions()
are unchanged by the second call. -/
theorem C5_updateQuestionAnswer_idempotent (qid : String) (a : StrOrList)
    (c : Bool) (s : SessionState) :
    updateQuestionAnswer qid a c (updateQuestionAnswer qid a c s) =
      updateQuestionAnswer qid a c s ∧
    getAllQuestions (updateQuestionAnswer qid a c (updateQuestionAnswer qid a c s)) =
      getAllQuestions (updateQuestionAnswer qid a c s) := by
  suffices h : updateQuestionAnswer qid a c (updateQuestionAnswer qid a c s) =
      updateQuestionAnswer qid a c s from ⟨h, by rw [h]⟩
  cases hw : s.worksheet with
  | none =>
    rw [updateQuestionAnswer_none qid a c s hw, updateQuestionAnswer_none qid a c s hw]
  | some w =>
    by_cases hf : questionIdFound qid w = true
    · rw [updateQuestionAnswer_found qid a c s w hw hf]
      set w' : Worksheet :=
        { w with sections := w.sections.map (applyAnswerSection qid a c) } with hw'
      have hsw : (saveWorksheet w' s).worksheet = some w' := rfl
      have hf' : questionIdFound qid w' = true := by
        rw [hw', questionIdFound_map qid a c w]
        exact hf
      rw [updateQuestionAnswer_found qid a c (saveWorksheet w' s) w' hsw hf']
      have hsec : w'.sections.map (applyAnswerSection qid a c) = w'.sections := by
        rw [hw']
        simp only [List.map_map]
        exact List.map_congr_left fun sec _ => applyAnswerSection_idem qid a c sec
      rw [hsec]
      rfl
    · have hf0 : questionIdFound qid w = false := by
        cases h : questionIdFound qid w
        · rfl
        · exact absurd h hf
      rw [updateQuestionAnswer_notFound qid a c s w hw hf0,
        updateQuestionAnswer_notFound qid a c s w hw hf0]

/-- C3 counterexample: on an unanswered question (userAnswer and
isCorrect both absent) generatePDF renders the Not answered marker and
nevertheless appends the correct-answer line, because the appending
condition is the falsiness of isCorrect, not an incorrect verdict; the
claim says the correct answer must not appear for unanswered questions. -/
theorem C3_counterexample :
    qC3unanswered.userAnswer = none ∧
    qC3unanswered.isCorrect ≠ some false ∧
    renderedUserAnswer qC3unanswered = "Not answered" ∧
    rendersCorrectAnswer qC3unanswered = true := by
  refine ⟨rfl, ?_, rfl, rfl⟩
  intro h
  exact Option.noConfusion h

/-- C3 amended: every question shows the submitted answer, or the
explicit Not answered marker when userAnswer is absent (or an empty
string); the canonical correct answer(s), joined by a comma delimiter
when multiple are accepted, appear beneath a question if and only if the
question is not marked correct — that is, for incorrectly answered
questions and also for unanswered questions. -/
theorem C3_report_layout (q : Question) :
    (rendersCorrectAnswer q = true ↔ q.isCorrect ≠ some true) ∧
    (q.userAnswer = none → renderedUserAnswer q = "Not answered") ∧
    (∀ s, q.userAnswer = some (.inl s) → s ≠ "" → renderedUserAnswer q = s) ∧
    (∀ l, q.correctAnswer = .inr l →
      renderedCorrectAnswer q = String.intercalate ", " l) := by
  refine ⟨?_, ?_, ?_, ?_⟩
  · rw [rendersCorrectAnswer]
    cases h : q.isCorrect with
    | none => simp
    | some b => cases b <;> simp
  · intro h
    rw [renderedUserAnswer, h]
  · intro s h hs
    rw [renderedUserAnswer, h]
    simp [hs]
  · intro l h
    rw [renderedCorrectAnswer, h]

/-- Witness for C3 amended at a concretely answered-incorrect question
and at the unanswered one. -/
theorem C3_report_layout_witness :
    renderedUserAnswer qC3unanswered = "Not answered" ∧
    rendersCorrectAnswer qC3unanswered = true := by
  have h := C3_report_layout qC3unanswered
  refine ⟨h.2.1 rfl, h.1.mpr ?_⟩
  intro hc
  exact Option.noConfusion hc

/-- applyAnswer preserves the both-absent-or-both-present invariant of a
question: the matched branch sets both fields at once. -/
theorem applyAnswer_atomic (qid : String) (a : StrOrList) (c : Bool)
    (q : Question) (h : (q.userAnswer.isSome == q.isCorrect.isSome) = true) :
    ((applyAnswer qid a c q).userAnswer.isSome ==
      (applyAnswer qid a c q).isCorrect.isSome) = true := by
  by_cases hq : q.id = qid
  · simp [applyAnswer, hq]
  · simp only [applyAnswer, hq, if_false]
    exact h

/-- The worksheet-level invariant is preserved by the update map. -/
theorem answerEvalAtomic_update (qid : String) (a : StrOrList) (c : Bool)
    (w : Worksheet) (h : answerEvalAtomic w = true) :
    answerEvalAtomic
      { w with sections := w.sections.map (applyAnswerSection qid a c) } = true := by
  simp only [answerEvalAtomic, List.all_eq_true] at h ⊢
  intro sec hsec
  obtain ⟨sec0, hsec0, rfl⟩ := List.mem_map.mp hsec
  intro q hq
  obtain ⟨q0, hq0, rfl⟩ := List.mem_map.mp hq
  exact applyAnswer_atomic qid a c q0 (h sec0 hsec0 q0 hq0)

/-- Every question produced by the ingestion adapter starts with neither
userAnswer nor isCorrect. -/
theorem processQuestions_fresh_fields (fresh : Nat → String) :
    ∀ (qs : List RawQuestion) (c : Nat),
      ∀ q ∈ (processQuestions fresh c qs).1, q.userAnswer = none ∧ q.isCorrect = none := by
  intro qs
  induction qs with
  | nil => intro c q hq; simp [processQuestions] at hq
  | cons q0 qs ih =>
    intro c q hq
    rcases List.mem_cons.mp hq with h | h
    · subst h; exact ⟨rfl, rfl⟩
    · exact ih (c + 1) q h

/-- Every question of every section produced by the adapter starts with
neither userAnswer nor isCorrect. -/
theorem processSections_fresh_fields (fresh : Nat → String) :
    ∀ (secs : List RawSection) (c : Nat),
      ∀ sec ∈ (processSections fresh c secs).1,
        ∀ q ∈ sec.questions, q.userAnswer = none ∧ q.isCorrect = none := by
  intro secs
  induction secs with
  | nil => intro c sec hsec; simp [processSections] at hsec
  | cons sec0 secs ih =>
    intro c sec hsec
    rcases List.mem_cons.mp hsec with h | h
    · subst h
      intro q hq
      exact processQuestions_fresh_fields fresh sec0.questions (c + 1) q hq
    · exact ih _ sec h

/-- The normalized worksheet satisfies the data-model invariant. -/
theorem answerEvalAtomic_processWorksheet (fresh : Nat → String)
    (rw : RawWorksheet) : answerEvalAtomic (processWorksheet fresh rw) = true := by
  simp only [answerEvalAtomic, List.all_eq_true]
  intro sec hsec q hq
  obtain ⟨hu, hc⟩ :=
    processSections_fresh_fields fresh rw.sections 1 sec hsec q hq
  rw [hu, hc]
  rfl

/-- The demo fixture satisfies the data-model invariant. -/
theorem answerEvalAtomic_sample : answerEvalAtomic sampleWorksheet = true := by
  rfl

/-- C7: the atomic-evaluation invariant holds in every reachable session
state: any stored worksheet has, for every question, userAnswer and
isCorrect both absent or both present — questions enter without either
field (ingestion and the demo fixture) and updateQuestionAnswer sets both
in one replacement. -/
theorem C7_answer_atomicity (s : SessionState) (hs : Reachable s)
    (w : Worksheet) (hw : s.worksheet = some w) : answerEvalAtomic w = true := by
  induction hs generalizing w with
  | init => exact absurd hw (by simp [emptyState])
  | clear _ _ => exact absurd hw (by simp [clearStorage, emptyState])
  | upload file fresh rw _ _ =>
    have hw' : some (processWorksheet fresh rw) = some w := hw
    obtain rfl := (Option.some_inj.mp hw').symm
    exact answerEvalAtomic_processWorksheet fresh rw
  | uploadFailed file _ _ =>
    exact absurd hw (by simp [uploadHandleSubmit, clearStorage, emptyState])
  | demo _ _ =>
    have hw' : some sampleWorksheet = some w := hw
    obtain rfl := (Option.some_inj.mp hw').symm
    exact answerEvalAtomic_sample
  | answer qid a c hprev ih =>
    rename_i s0
    cases hw0 : s0.worksheet with
    | none =>
      rw [updateQuestionAnswer_none qid a c s0 hw0] at hw
      exact absurd hw0 (by rw [hw]; intro h; exact Option.noConfusion h)
    | some w0 =>
      by_cases hf : questionIdFound qid w0 = true
      · rw [updateQuestionAnswer_found qid a c s0 w0 hw0 hf] at hw
        have hw' :
            some { w0 with
              sections := w0.sections.map (applyAnswerSection qid a c) } = some w := hw
        obtain rfl := (Option.some_inj.mp hw').symm
        exact answerEvalAtomic_update qid a c w0 (ih w0 hw0)
      · have hf0 : questionIdFound qid w0 = false := by
          cases h : questionIdFound qid w0
          · rfl
          · exact absurd h hf
        rw [updateQuestionAnswer_notFound qid a c s0 w0 hw0 hf0] at hw
        rw [hw0] at hw
        have hww : w = w0 := (Option.some_inj.mp hw).symm
        rw [hww]
        exact ih w0 hw0
  | saveIndex i _ ih => exact ih w hw
  | saveInfo info _ ih => exact ih w hw
  | complete b _ ih => exact ih w hw

/-- Witness for C7: the session holding the freshly loaded demo worksheet
is reachable and its worksheet satisfies the invariant. -/
theorem C7_answer_atomicity_witness : answerEvalAtomic sampleWorksheet = true := by
  exact C7_answer_atomicity (saveWorksheet sampleWorksheet (clearStorage emptyState))
    (Reachable.demo Reachable.init) sampleWorksheet rfl

/-- updateQuestionAnswer either leaves the state as is or only rewrites
the worksheet slot. -/
theorem updateQuestionAnswer_cases (qid : String) (a : StrOrList) (c : Bool)
    (s : SessionState) :
    updateQuestionAnswer qid a c s = s ∨
      ∃ w', updateQuestionAnswer qid a c s = saveWorksheet w' s := by
  cases hw : s.worksheet with
  | none =>
    rw [updateQuestionAnswer_none qid a c s hw]
    exact Or.inl rfl
  | some w =>
    by_cases hf : questionIdFound qid w = true
    · rw [updateQuestionAnswer_found qid a c s w hw hf]
      exact Or.inr ⟨_, rfl⟩
    · have hf0 : questionIdFound qid w = false := by
        cases h : questionIdFound qid w
        · rfl
        · exact absurd h hf
      rw [updateQuestionAnswer_notFound qid a c s w hw hf0]
      exact Or.inl rfl

/-- C6: updateQuestionAnswer changes at most the userAnswer and isCorrect
fields of the questions matching the id: the other three storage slots
are untouched; with no worksheet loaded, or no question carrying the id,
the whole state is unchanged (a non-error no-op); and with a worksheet
loaded the stored result keeps the worksheet id, title and description,
the section ids, titles, instructions and ordering, and the question
ordering, every non-matching question being exactly unchanged and every
matching question keeping its id, type, text, options and correctAnswer
while receiving the submitted userAnswer and isCorrect. -/
theorem C6_update_frame (s : SessionState) (qid : String) (a : StrOrList)
    (c : Bool) :
    ((updateQuestionAnswer qid a c s).currentQuestionIndex = s.currentQuestionIndex ∧
     (updateQuestionAnswer qid a c s).studentInfo = s.studentInfo ∧
     (updateQuestionAnswer qid a c s).completed = s.completed) ∧
    (s.worksheet = none → updateQuestionAnswer qid a c s = s) ∧
    (∀ w, s.worksheet = some w → questionIdFound qid w = false →
      updateQuestionAnswer qid a c s = s) ∧
    (∀ w, s.worksheet = some w → ∃ w',
      (updateQuestionAnswer qid a c s).worksheet = some w' ∧
      w'.id = w.id ∧ w'.title = w.title ∧ w'.description = w.description ∧
      List.Forall₂ (fun sec sec' =>
        sec'.id = sec.id ∧ sec'.title = sec.title ∧
        sec'.instructions = sec.instructions ∧
        List.Forall₂ (fun q q' =>
          q'.id = q.id ∧ q'.type = q.type ∧ q'.text = q.text ∧
          q'.options = q.options ∧ q'.correctAnswer = q.correctAnswer ∧
          (q.id ≠ qid → q' = q) ∧
          (q.id = qid → q'.userAnswer = some a ∧ q'.isCorrect = some c))
          sec.questions sec'.questions)
        w.sections w'.sections) := by
  refine ⟨?_, updateQuestionAnswer_none qid a c s, ?_, ?_⟩
  · rcases updateQuestionAnswer_cases qid a c s with h | ⟨w', h⟩
    · rw [h]
      exact ⟨rfl, rfl, rfl⟩
    · rw [h]
      exact ⟨rfl, rfl, rfl⟩
  · exact fun w hw hf => updateQuestionAnswer_notFound qid a c s w hw hf
  · intro w hw
    by_cases hf : questionIdFound qid w = true
    · refine ⟨{ w with sections := w.sections.map (applyAnswerSection qid a c) },
        ?_, rfl, rfl, rfl, ?_⟩
      · rw [updateQuestionAnswer_found qid a c s w hw hf]
        rfl
      · rw [List.forall₂_map_right_iff, List.forall₂_same]
        intro sec _
        refine ⟨rfl, rfl, rfl, ?_⟩
        rw [applyAnswerSection, List.forall₂_map_right_iff, List.forall₂_same]
        intro q _
        by_cases hq : q.id = qid
        · have hqa : applyAnswer qid a c q =
              { q with userAnswer := some a, isCorrect := some c } := by
            simp [applyAnswer, hq]
          rw [hqa]
          exact ⟨rfl, rfl, rfl, rfl, rfl, fun h => absurd hq h, fun _ => ⟨rfl, rfl⟩⟩
        · have hqa : applyAnswer qid a c q = q := by
            simp [applyAnswer, hq]
          rw [hqa]
          exact ⟨rfl, rfl, rfl, rfl, rfl, fun _ => rfl, fun h => absurd h hq⟩
    · have hf0 : questionIdFound qid w = false := by
        cases h : questionIdFound qid w
        · rfl
        · exact absurd h hf
      have hnomatch : ∀ sec ∈ w.sections, ∀ q ∈ sec.questions, ¬ q.id = qid := by
        intro sec hsec q hq he
        have ht : questionIdFound qid w = true := by
          simp only [questionIdFound, List.any_eq_true]
          exact ⟨sec, hsec, q, hq, by simp [he]⟩
        rw [ht] at hf0
        exact Bool.noConfusion hf0
      refine ⟨w, ?_, rfl, rfl, rfl, ?_⟩
      · rw [updateQuestionAnswer_notFound qid a c s w hw hf0, hw]
      · rw [List.forall₂_same]
        intro sec hsec
        refine ⟨rfl, rfl, rfl, ?_⟩
        rw [List.forall₂_same]
        intro q hq
        exact ⟨rfl, rfl, rfl, rfl, rfl, fun _ => rfl,
          fun h => absurd h (hnomatch sec hsec q hq)⟩

/-- Witness for C6 on the demo worksheet: answering question q1 stores a
worksheet that keeps the demo worksheet id. -/
theorem C6_update_frame_witness :
    ∃ w', (updateQuestionAnswer "q1" (Sum.inl "b") true
      (saveWorksheet sampleWorksheet emptyState)).worksheet = some w' ∧
      w'.id = "demo-worksheet" := by
  obtain ⟨w', hw', hid, -⟩ :=
    (C6_update_frame (saveWorksheet sampleWorksheet emptyState) "q1"
      (Sum.inl "b") true).2.2.2 sampleWorksheet rfl
  exact ⟨w', hw', hid⟩

/-- Splitting a range at an intermediate count. -/
theorem range'_add_eq_append (s m n : Nat) :
    List.range' s (m + n) = List.range' s m ++ List.range' (s + m) n := by
  have h := List.range'_append s m n 1
  simp only [one_mul] at h
  rw [Nat.add_comm n m] at h
  exact h.symm

/-- Normalizing a question list consumes exactly one uuid per question. -/
theorem processQuestions_count (fresh : Nat → String) :
    ∀ (qs : List RawQuestion) (c : Nat),
      (processQuestions fresh c qs).2 = c + qs.length := by
  intro qs
  induction qs with
  | nil => intro c; simp [processQuestions]
  | cons q qs ih =>
    intro c
    simp only [processQuestions, List.length_cons]
    rw [ih (c + 1)]
    omega

/-- The ids of the normalized questions are the uuid supply applied to
the consecutive counter values. -/
theorem processQuestions_ids (fresh : Nat → String) :
    ∀ (qs : List RawQuestion) (c : Nat),
      (processQuestions fresh c qs).1.map Question.id =
        (List.range' c qs.length).map fresh := by
  intro qs
  induction qs with
  | nil => intro c; simp [processQuestions]
  | cons q qs ih =>
    intro c
    simp only [processQuestions, List.length_cons, List.range'_succ, List.map_cons]
    exact congrArg (fun l => (fresh c) :: l) (ih (c + 1))

/-- Normalizing a section list consumes exactly idCount uuids. -/
theorem processSections_count (fresh : Nat → String) :
    ∀ (secs : List RawSection) (c : Nat),
      (processSections fresh c secs).2 = c + idCount secs := by
  intro secs
  induction secs with
  | nil => intro c; simp [processSections, idCount]
  | cons sec secs ih =>
    intro c
    simp only [processSections]
    rw [ih, processQuestions_count fresh sec.questions (c + 1)]
    simp only [idCount, List.map_cons, List.sum_cons]
    omega

/-- The worksheet-level id sequence produced while normalizing sections
(section id followed by its question ids, section after section) is the
uuid supply applied to the consecutive counter values. -/
theorem processSections_ids (fresh : Nat → String) :
    ∀ (secs : List RawSection) (c : Nat),
      (processSections fresh c secs).1.flatMap
          (fun sec => sec.id :: sec.questions.map Question.id) =
        (List.range' c (idCount secs)).map fresh := by
  intro secs
  induction secs with
  | nil => intro c; simp [processSections, idCount]
  | cons sec secs ih =>
    intro c
    have hcount : idCount (sec :: secs) =
        (sec.questions.length + idCount secs) + 1 := by
      simp only [idCount, List.map_cons, List.sum_cons]
      omega
    rw [hcount]
    simp only [processSections, List.flatMap_cons, List.range'_succ, List.map_cons]
    rw [processQuestions_ids fresh sec.questions (c + 1),
      processQuestions_count fresh sec.questions (c + 1),
      ih (c + 1 + sec.questions.length),
      range'_add_eq_append (c + 1) sec.questions.length (idCount secs),
      List.map_append]
    simp [List.cons_append]

/-- All ids of the normalized worksheet are the uuid supply on the range
from 0 up to idCount. -/
theorem collectIds_processWorksheet (fresh : Nat → String) (rw : RawWorksheet) :
    collectIds (processWorksheet fresh rw) =
      (List.range' 0 (idCount rw.sections + 1)).map fresh := by
  simp only [collectIds, processWorksheet]
  rw [processSections_ids fresh rw.sections 1]
  rw [List.range'_succ, List.map_cons]

/-- Letter ids are single characters, hence never empty. -/
theorem letterId_ne_empty (i : Nat) : letterId i ≠ "" := by
  intro h
  have hd : (letterId i).data = [Char.ofNat (97 + i)] := rfl
  rw [h] at hd
  exact List.noConfusion hd

/-- Backfilled option ids are never empty: either the raw id was kept
because it was truthy, or the non-empty letter id was assigned. -/
theorem backfillOption_id_ne_empty (i : Nat) (ro : RawOption) :
    (backfillOption i ro).id ≠ "" := by
  show (if ro.id = "" then letterId i else ro.id) ≠ ""
  by_cases hid : ro.id = ""
  · rw [if_pos hid]
    exact letterId_ne_empty i
  · rw [if_neg hid]
    exact hid

/-- Each normalized question is related to its raw source by rawQRel. -/
theorem processQuestion_rel (freshId : String) (rq : RawQuestion) :
    rawQRel rq (processQuestion freshId rq) := by
  refine ⟨rfl, rfl, rfl, rfl, rfl, ?_, ?_⟩
  · show (rq.options.map _).isSome = rq.options.isSome
    exact Option.isSome_map ..
  · intro opts opts' h1 h2
    have h2' : (rq.options.map fun o => o.enum.map fun p => backfillOption p.1 p.2)
        = some opts' := h2
    rw [h1] at h2'
    have h3 : opts' = opts.enum.map fun p => backfillOption p.1 p.2 :=
      (Option.some_inj.mp h2').symm
    constructor
    · rw [h3]
      simp
    · intro i ro hro
      have hi : opts'[i]? = some (backfillOption i ro) := by
        rw [h3, List.getElem?_map, List.getElem?_enum, hro]
        rfl
      constructor
      · intro hid
        rw [hi]
        have : backfillOption i ro = { id := ro.id, text := ro.text } := by
          show ({ id := if ro.id = "" then letterId i else ro.id,
                  text := ro.text } : QOption) = _
          rw [if_neg hid]
        rw [this]
      · intro hid
        rw [hi]
        have : backfillOption i ro = { id := letterId i, text := ro.text } := by
          show ({ id := if ro.id = "" then letterId i else ro.id,
                  text := ro.text } : QOption) = _
          rw [if_pos hid]
        rw [this]

/-- The normalized question list is related pointwise, in order, to the
raw question list. -/
theorem processQuestions_rel (fresh : Nat → String) :
    ∀ (qs : List RawQuestion) (c : Nat),
      List.Forall₂ rawQRel qs (processQuestions fresh c qs).1 := by
  intro qs
  induction qs with
  | nil => intro c; exact List.Forall₂.nil
  | cons q qs ih =>
    intro c
    exact List.Forall₂.cons (processQuestion_rel (fresh c) q) (ih (c + 1))

/-- The normalized section list is related pointwise, in order, to the
raw section list. -/
theorem processSections_rel (fresh : Nat → String) :
    ∀ (secs : List RawSection) (c : Nat),
      List.Forall₂ rawSecRel secs (processSections fresh c secs).1 := by
  intro secs
  induction secs with
  | nil => intro c; exact List.Forall₂.nil
  | cons sec secs ih =>
    intro c
    refine List.Forall₂.cons ⟨rfl, rfl, ?_⟩ (ih _)
    exact processQuestions_rel fresh sec.questions (c + 1)

/-- Every normalized question is a processQuestion image. -/
theorem processQuestions_mem (fresh : Nat → String) :
    ∀ (qs : List RawQuestion) (c : Nat) (q : Question),
      q ∈ (processQuestions fresh c qs).1 →
      ∃ k rq, q = processQuestion (fresh k) rq := by
  intro qs
  induction qs with
  | nil => intro c q hq; simp [processQuestions] at hq
  | cons q0 qs ih =>
    intro c q hq
    rcases List.mem_cons.mp hq with h | h
    · exact ⟨c, q0, h⟩
    · exact ih (c + 1) q h

/-- Every question of the normalized sections is a processQuestion
image. -/
theorem processSections_mem_question (fresh : Nat → String) :
    ∀ (secs : List RawSection) (c : Nat) (sec : WorksheetSection),
      sec ∈ (processSections fresh c secs).1 →
      ∀ q ∈ sec.questions, ∃ k rq, q = processQuestion (fresh k) rq := by
  intro secs
  induction secs with
  | nil => intro c sec hsec; simp [processSections] at hsec
  | cons sec0 secs ih =>
    intro c sec hsec
    rcases List.mem_cons.mp hsec with h | h
    · subst h
      intro q hq
      exact processQuestions_mem fresh sec0.questions (c + 1) q hq
    · exact ih _ sec h

/-- C8: under an injective uuid supply that never yields the empty
string, ingestion normalization gives the worksheet, every section and
every question a fresh id — all pairwise distinct and non-empty — keeps
sections and questions in their original order with title, instructions,
type, text and correctAnswer carried over, backfills every option lacking
an id with the letter id of its array position while keeping present
option ids, leaves every option id non-empty, and reading the saved
result back through getWorksheet returns exactly the normalized
worksheet. -/
theorem C8_ingest_normalization (fresh : Nat → String) (rw : RawWorksheet)
    (hinj : ∀ m n, fresh m = fresh n → m = n) (hne : ∀ n, fresh n ≠ "") :
    getWorksheet (saveWorksheet (processWorksheet fresh rw) emptyState) =
      some (processWorksheet fresh rw) ∧
    (collectIds (processWorksheet fresh rw)).Nodup ∧
    (∀ i ∈ collectIds (processWorksheet fresh rw), i ≠ "") ∧
    List.Forall₂ rawSecRel rw.sections (processWorksheet fresh rw).sections ∧
    (∀ sec ∈ (processWorksheet fresh rw).sections, ∀ q ∈ sec.questions,
      ∀ opts, q.options = some opts → ∀ o ∈ opts, o.id ≠ "") := by
  refine ⟨rfl, ?_, ?_, ?_, ?_⟩
  · rw [collectIds_processWorksheet fresh rw]
    exact (List.nodup_range' ..).map (fun m n h => hinj m n h)
  · intro i hi
    rw [collectIds_processWorksheet fresh rw] at hi
    obtain ⟨k, -, rfl⟩ := List.mem_map.mp hi
    exact hne k
  · exact processSections_rel fresh rw.sections 1
  · intro sec hsec q hq opts hopts o ho
    obtain ⟨k, rq, rfl⟩ :=
      processSections_mem_question fresh rw.sections 1 sec hsec q hq
    simp only [processQuestion] at hopts
    cases hro : rq.options with
    | none => rw [hro] at hopts; exact Option.noConfusion hopts
    | some ropts =>
      rw [hro] at hopts
      have hopts' : ropts.enum.map (fun p => backfillOption p.1 p.2) = opts :=
        Option.some_inj.mp hopts
      rw [← hopts'] at ho
      obtain ⟨p, -, rfl⟩ := List.mem_map.mp ho
      exact backfillOption_id_ne_empty p.1 p.2

/-- Witness for C8 at the concrete supply freshU and raw worksheet rwC8:
the collected ids are distinct and the round trip through the store
returns the normalized worksheet. -/
theorem C8_ingest_normalization_witness :
    (collectIds (processWorksheet freshU rwC8)).Nodup ∧
    getWorksheet (saveWorksheet (processWorksheet freshU rwC8) emptyState) =
      some (processWorksheet freshU rwC8) := by
  have hinj : ∀ m n, freshU m = freshU n → m = n := by
    intro m n h
    have hd := congrArg (fun s => s.data.length) h
    simp only [freshU, List.length_replicate] at hd
    omega
  have hne : ∀ n, freshU n ≠ "" := by
    intro n h
    have hd := congrArg (fun s => s.data.length) h
    simp [freshU] at hd
  obtain ⟨h1, h2, -⟩ := C8_ingest_normalization freshU rwC8 hinj hne
  exact ⟨h2, h1⟩

end QuizWiz
